import Mathlib

/-!
Verification of robertrotau/read_wav_files (src/main.py) against its
natural-language specification.

Shallow embedding conventions:
  * a file on disk is a `List Nat` of byte values; the basename of a path is
    passed alongside the bytes (the code only ever uses `Path(p).name` and the
    opened byte stream);
  * Python exceptions are modelled by `Except PyErr`;
  * Python `int` is `Int`, `float` durations are exact rationals `ℚ`
    (every division the code performs on the tested values is exact);
  * the mutable object heap needed by the `Corpus` methods is an explicit
    `Store` of list-cells and set-cells addressed by natural-number refs.
-/

/-- Python exception kinds that the embedded code can raise.
`unsupportedBitDepth` is never produced by the code under `src/`; it stands for
the explicit "unsupported bit depth" error that the spec envisions an
implementer raising, so that its absence can be stated. -/
inductive PyErr where
  | typeError
  | valueError
  | indexError
  | zeroDivisionError
  | nameError
  | jsonError
  | unsupportedBitDepth
deriving DecidableEq

instance {ε α : Type} [DecidableEq ε] [DecidableEq α] : DecidableEq (Except ε α) := fun a b =>
  match a, b with
  | .error e, .error f =>
    if h : e = f then .isTrue (by rw [h]) else .isFalse (by intro hh; cases hh; exact h rfl)
  | .error _, .ok _ => .isFalse (by intro hh; cases hh)
  | .ok _, .error _ => .isFalse (by intro hh; cases hh)
  | .ok x, .ok y =>
    if h : x = y then .isTrue (by rw [h]) else .isFalse (by intro hh; cases hh; exact h rfl)

/-- Byte of a file at index `i` (callers guard ranges; default 0). -/
def byteAt (b : List Nat) (i : Nat) : Nat := b.getD i 0

/-- Little-endian unsigned value of `n` bytes of `b` starting at `start`. -/
def leNat (b : List Nat) (start : Nat) : Nat → Nat
  | 0 => 0
  | k + 1 => byteAt b start + 256 * leNat b (start + 1) k

/-- Model of `int(np.fromfile(file, dtype=<itemsize bytes>, count=1, offset=offset))`
with the cursor at `pos`: numpy skips `offset` bytes from the cursor and reads
one item; if no full item is available the array is empty and the `int(...)`
conversion raises a TypeError, modelled by `none`.  Returns the value and the
new cursor position. -/
def npScalar (b : List Nat) (pos itemsize offset : Nat) : Option Nat × Nat :=
  if pos + offset + itemsize ≤ b.length then
    (some (leNat b (pos + offset) itemsize), pos + offset + itemsize)
  else
    (none, min (pos + offset) b.length)

/-- Reinterpretation, twos complement, of an unsigned `w`-bit value. -/
def toSigned (w v : Nat) : Int :=
  if v < 2 ^ (w - 1) then (v : Int) else (v : Int) - 2 ^ w

def chunk2 : List Nat → List (List Nat)
  | a :: b :: r => [a, b] :: chunk2 r
  | _ => []

def chunk4 : List Nat → List (List Nat)
  | a :: b :: c :: d :: r => [a, b, c, d] :: chunk4 r
  | _ => []

def chunk8 : List Nat → List (List Nat)
  | a :: b :: c :: d :: e :: f :: g :: h :: r => [a, b, c, d, e, f, g, h] :: chunk8 r
  | _ => []

/-- Little-endian value of a byte chunk. -/
def leList : List Nat → Nat
  | [] => 0
  | x :: r => x + 256 * leList r

/-- Model of `np.fromfile(file, dtype=np.int16, count=-1, ...)`: every complete
little-endian 2-byte item of the remaining bytes, as signed integers
(numpy drops a trailing partial item). -/
def decode16 (b : List Nat) : List Int := (chunk2 b).map (fun c => toSigned 16 (leList c))

/-- Model of `np.fromfile(file, dtype=np.int32, count=-1, ...)` on the remaining bytes. -/
def decode32 (b : List Nat) : List Int := (chunk4 b).map (fun c => toSigned 32 (leList c))

/-- Model of `np.fromfile(file, dtype=np.int64, count=-1, ...)` on the remaining bytes. -/
def decode64 (b : List Nat) : List Int := (chunk8 b).map (fun c => toSigned 64 (leList c))

/-- The `WAVFile` class of src/main.py (duration as an exact rational). -/
structure WAVFile where
  bits_per_sample : Nat
  duration : ℚ
  file_name : String
  fs : Nat
  n_channels : Nat
  data : List Int
deriving DecidableEq

/-- The function `read_wavfile` of src/main.py, translated statement by statement.
The three header reads are cursor-relative exactly as in the source
(`offset=22`, then `offset` defaulting to 0, then `offset=6`); the payload
read skips a further 8 bytes.  If no branch of the `if` chain binds `data`,
evaluating `data.size` raises a NameError; `data.size / fs` with `fs = 0`
raises a ZeroDivisionError. -/
def read_wavfile (fileName : String) (b : List Nat) : Except PyErr WAVFile :=
  match npScalar b 0 2 22 with
  | (none, _) => .error .typeError
  | (some n_channels, p1) =>
    match npScalar b p1 4 0 with
    | (none, _) => .error .typeError
    | (some fs, p2) =>
      match npScalar b p2 2 6 with
      | (none, _) => .error .typeError
      | (some bits, p3) =>
        let dataOpt : Option (List Int) :=
          if bits = 16 then some (decode16 (b.drop (p3 + 8)))
          else if bits = 32 then some (decode32 (b.drop (p3 + 8)))
          else if bits = 64 then some (decode64 (b.drop (p3 + 8)))
          else none
        match dataOpt with
        | none => .error .nameError
        | some data =>
          if fs = 0 then .error .zeroDivisionError
          else .ok ⟨bits, (data.length : ℚ) / (fs : ℚ), fileName, fs, n_channels, data⟩

/-- Spec-side reader (from the words of the spec, for the offset-refinement claim):
16-bit little-endian field at an absolute byte offset. -/
def u16le (b : List Nat) (i : Nat) : Nat := leNat b i 2

/-- Spec-side reader: 32-bit little-endian field at an absolute byte offset. -/
def u32le (b : List Nat) (i : Nat) : Nat := leNat b i 4

/-- Spec-side view: everything from absolute byte offset 44 onward. -/
def pcmPayload (b : List Nat) : List Nat := b.drop 44

/-- Spec-side view: payload interpreted at the width given by bits-per-sample. -/
def decodeAtWidth (bits : Nat) (p : List Nat) : List Int :=
  if bits = 16 then decode16 p
  else if bits = 32 then decode32 p
  else if bits = 64 then decode64 p
  else []

/-! ## Python string primitives used by `read_recording` -/

/-- Numeric value of an ASCII digit character. -/
def digitVal (c : Char) : Nat := c.toNat - 48

/-- Digit tail of a Python integer literal: digits, with single underscores
allowed between digits (Python 3 `int()` grammar). -/
def pyIntLoop (acc : Nat) : List Char → Option Nat
  | [] => some acc
  | c :: rest =>
    if c.isDigit then pyIntLoop (acc * 10 + digitVal c) rest
    else if c = '_' then
      match rest with
      | [] => none
      | c2 :: rest2 =>
        if c2.isDigit then pyIntLoop (acc * 10 + digitVal c2) rest2 else none
    else none

/-- Whitespace stripping performed by Python `int(str)`. -/
def pyStrip (l : List Char) : List Char :=
  ((l.dropWhile Char.isWhitespace).reverse.dropWhile Char.isWhitespace).reverse

/-- Sign-and-digits part of Python `int(str)`: the (stripped) literal starts
with `c` and continues with `rest`. -/
def pyIntSigned (c : Char) (rest : List Char) : Option Int :=
  if c = '-' then
    match rest with
    | [] => none
    | c2 :: rest2 =>
      if c2.isDigit then (pyIntLoop (digitVal c2) rest2).map (fun n => -(n : Int)) else none
  else if c = '+' then
    match rest with
    | [] => none
    | c2 :: rest2 =>
      if c2.isDigit then (pyIntLoop (digitVal c2) rest2).map (fun n => (n : Int)) else none
  else if c.isDigit then (pyIntLoop (digitVal c) rest).map (fun n => (n : Int)) else none

def pyIntCore : List Char → Option Int
  | [] => none
  | c :: rest => pyIntSigned c rest

/-- Python `int(s)` for a decimal string: optional surrounding whitespace,
optional sign, then a nonempty digit sequence (underscores permitted between
digits).  `none` models the ValueError raised otherwise. -/
def pyInt (s : String) : Option Int := pyIntCore (pyStrip s.data)

/-- Clamped bound of a Python slice endpoint (negative indices count from the
end; both ends clamp into `[0, len]`, never raising). -/
def pyBound (len : Nat) (i : Int) : Nat :=
  if i < 0 then ((len : Int) + i).toNat else min i.toNat len

/-- Python slice `l[a:b]`. -/
def pySlice {α : Type} (l : List α) (a b : Int) : List α :=
  (l.take (pyBound l.length b)).drop (pyBound l.length a)

def pyFindAux (c : Char) : List Char → Option Nat
  | [] => none
  | x :: r => if x = c then some 0 else (pyFindAux c r).map (· + 1)

/-- Python `s.find(c)`: index of the first occurrence, or `-1`. -/
def pyFind (s : String) (c : Char) : Int :=
  match pyFindAux c s.data with
  | some i => (i : Int)
  | none => -1

/-- The `Recording` class of src/main.py. -/
structure Recording where
  digit : Int
  index : Int
  speaker : String
  wav : WAVFile
deriving DecidableEq

/-- The function `read_recording` of src/main.py.  `fileName` is `Path(file_path).name` and
`b` the bytes of the file.  In source order: `int(name[0])` (IndexError on an empty
name, ValueError on a bad digit), `name[2:4]` (a clamped slice, never an
error), `int(name[5:name.find(".")])`, then the WAV decode. -/
def read_recording (fileName : String) (b : List Nat) : Except PyErr Recording :=
  match fileName.data.head? with
  | none => .error .indexError
  | some c0 =>
    match pyInt (String.mk [c0]) with
    | none => .error .valueError
    | some digit =>
      let speaker := String.mk (pySlice fileName.data 2 4)
      match pyInt (String.mk (pySlice fileName.data 5 (pyFind fileName '.'))) with
      | none => .error .valueError
      | some index =>
        match read_wavfile fileName b with
        | .error e => .error e
        | .ok w => .ok ⟨digit, index, speaker, w⟩

/-! ## Filesystem and metadata model for the `Corpus` layer -/

/-- A parsed metadata dictionary: speaker alias to the *ordered* list of the
attribute record values (`list(meta_dict[a].values())`). -/
abbrev MetaDict := List (String × List String)

/-- The filesystem the corpus operations see.
`txtFiles p` is the `Path(p).glob("*.txt")` result, each file either parsed
JSON content (`some`) or malformed (`none`); `wavFiles p sp` is the
`Path(p, sp).glob("*.wav")` result as (basename, bytes) pairs in glob order. -/
structure FSys where
  txtFiles : String → List (Option MetaDict)
  wavFiles : String → String → List (String × List Nat)

/-- The function `read_meta_file` of src/main.py: open the first `*.txt` glob hit
(`meta_data[0]`: IndexError when there is none) and `json.load` it. -/
def read_meta_file (fsys : FSys) (p : String) : Except PyErr MetaDict :=
  match fsys.txtFiles p with
  | [] => .error .indexError
  | f :: _ =>
    match f with
    | none => .error .jsonError
    | some m => .ok m

/-! ## Object store

Python `Corpus` objects hold references to a mutable `list` of recordings and
a mutable `set` of speakers.  The heap of those containers is made explicit:
`Store.lists`/`Store.sets` are the allocated cells, addressed by index.
Attribute rebinding (`new_corpus.speakers = ...`) allocates a fresh set cell
(Python `set.union`/`&` return new sets); `recordings.append` mutates a list
cell in place. -/

structure Store where
  lists : List (List Recording)
  sets : List (Finset String)
deriving DecidableEq

def Store.getList (s : Store) (r : Nat) : List Recording := s.lists.getD r []

def Store.getSet (s : Store) (r : Nat) : Finset String := s.sets.getD r ∅

/-- Appending, `<list cell r>.append(rec)`. -/
def Store.appendRec (s : Store) (r : Nat) (rec : Recording) : Store :=
  ⟨s.lists.set r (s.getList r ++ [rec]), s.sets⟩

/-- A Python `Corpus` object: its immutable `dataset_path` value and the heap
references of its `recordings` list and `speakers` set. -/
structure CorpusObj where
  dataset_path : String
  recordingsRef : Nat
  speakersRef : Nat
deriving DecidableEq

/-- The function `make_corpus` of src/main.py: a fresh empty list cell and a fresh empty
set cell, wrapped in a new `Corpus`. -/
def make_corpus (s : Store) (p : String) : Store × CorpusObj :=
  (⟨s.lists ++ [[]], s.sets ++ [∅]⟩, ⟨p, s.lists.length, s.sets.length⟩)

/-- Iteration order of a Python `set` is unspecified; the model fixes the
sorted order (none of the verified properties depend on this choice). -/
def setIter (x : Finset String) : List String := x.sort (· ≤ ·)

/-- Inner rebuild loop body: `for path in pathlist: ...append(read_recording(path))`
over the glob result of one speaker, appending into list cell `ref`.  A decode
failure propagates immediately, leaving the partial appends in place. -/
def addDirRecs (ref : Nat) : Store → List (String × List Nat) → Store × Except PyErr Unit
  | s, [] => (s, .ok ())
  | s, (name, bytes) :: rest =>
    match read_recording name bytes with
    | .error e => (s, .error e)
    | .ok rec => addDirRecs ref (s.appendRec ref rec) rest

/-- Outer rebuild loop: `for speaker in new_corpus.speakers:` globbing
`Path(self.dataset_path, speaker)` — shared verbatim by `add_speakers`,
`add_accent`, `add_gender` and `__and__`. -/
def buildRecs (fsys : FSys) (path : String) (ref : Nat) :
    Store → List String → Store × Except PyErr Unit
  | s, [] => (s, .ok ())
  | s, sp :: rest =>
    match addDirRecs ref s (fsys.wavFiles path sp) with
    | (s2, .ok _) => buildRecs fsys path ref s2 rest
    | (s2, .error e) => (s2, .error e)

/-- The method `Corpus.add_speakers` of src/main.py: fresh corpus via `make_corpus`,
rebind its `speakers` to `self.speakers.union(speakers)` (a new set cell),
rebuild recordings for every speaker of the new set, and return a final
`Corpus(...)` sharing the new containers. -/
def add_speakers (fsys : FSys) (s : Store) (self : CorpusObj) (names : List String) :
    Store × Except PyErr CorpusObj :=
  let sc := make_corpus s self.dataset_path
  let s1 := sc.1
  let nc := sc.2
  let newSpk := s1.getSet self.speakersRef ∪ names.toFinset
  let s2 : Store := ⟨s1.lists, s1.sets ++ [newSpk]⟩
  let spkRef := s1.sets.length
  match buildRecs fsys self.dataset_path nc.recordingsRef s2 (setIter newSpk) with
  | (s3, .ok _) => (s3, .ok ⟨nc.dataset_path, nc.recordingsRef, spkRef⟩)
  | (s3, .error e) => (s3, .error e)

/-- Python `str.capitalize()` (ASCII): first character uppercased, the rest
lowercased. -/
def capitalize (s : String) : String :=
  match s.data with
  | [] => ""
  | c :: cs => String.mk (c.toUpper :: cs.map Char.toLower)

/-- Test made by one `add_accent` loop iteration:
`list(meta_dict[a].values())[0]` (IndexError on an empty record), split on
`"/"`, capitalize each entry, and test membership of `accent.capitalize()`. -/
def accentMatch (accent : String) (vals : List String) : Except PyErr Bool :=
  match vals.head? with
  | none => .error .indexError
  | some v => .ok (((v.splitOn "/").map capitalize).contains (capitalize accent))

/-- The `new_speakers` set that the metadata loop of `add_accent` collects. -/
def accentSpeakers (accent : String) : MetaDict → Except PyErr (Finset String)
  | [] => .ok ∅
  | (spkAlias, vals) :: rest =>
    match accentMatch accent vals with
    | .error e => .error e
    | .ok b =>
      match accentSpeakers accent rest with
      | .error e => .error e
      | .ok acc => .ok (if b then insert spkAlias acc else acc)

/-- The method `Corpus.add_accent` of src/main.py. -/
def add_accent (fsys : FSys) (s : Store) (self : CorpusObj) (accent : String) :
    Store × Except PyErr CorpusObj :=
  let sc := make_corpus s self.dataset_path
  let s1 := sc.1
  let nc := sc.2
  match read_meta_file fsys self.dataset_path with
  | .error e => (s1, .error e)
  | .ok m =>
    match accentSpeakers accent m with
    | .error e => (s1, .error e)
    | .ok ns =>
      let newSpk := s1.getSet self.speakersRef ∪ ns
      let s2 : Store := ⟨s1.lists, s1.sets ++ [newSpk]⟩
      let spkRef := s1.sets.length
      match buildRecs fsys self.dataset_path nc.recordingsRef s2 (setIter newSpk) with
      | (s3, .ok _) => (s3, .ok ⟨nc.dataset_path, nc.recordingsRef, spkRef⟩)
      | (s3, .error e) => (s3, .error e)

/-- The `new_speakers` set that the metadata loop of `add_gender` collects:
`list(meta_dict[a].values())[2]` (IndexError on a short record), compared
for exact string equality. -/
def genderSpeakers (gender : String) : MetaDict → Except PyErr (Finset String)
  | [] => .ok ∅
  | (spkAlias, vals) :: rest =>
    match vals[2]? with
    | none => .error .indexError
    | some g =>
      match genderSpeakers gender rest with
      | .error e => .error e
      | .ok acc => .ok (if g = gender then insert spkAlias acc else acc)

/-- The method `Corpus.add_gender` of src/main.py. -/
def add_gender (fsys : FSys) (s : Store) (self : CorpusObj) (gender : String) :
    Store × Except PyErr CorpusObj :=
  let sc := make_corpus s self.dataset_path
  let s1 := sc.1
  let nc := sc.2
  match read_meta_file fsys self.dataset_path with
  | .error e => (s1, .error e)
  | .ok m =>
    match genderSpeakers gender m with
    | .error e => (s1, .error e)
    | .ok ns =>
      let newSpk := s1.getSet self.speakersRef ∪ ns
      let s2 : Store := ⟨s1.lists, s1.sets ++ [newSpk]⟩
      let spkRef := s1.sets.length
      match buildRecs fsys self.dataset_path nc.recordingsRef s2 (setIter newSpk) with
      | (s3, .ok _) => (s3, .ok ⟨nc.dataset_path, nc.recordingsRef, spkRef⟩)
      | (s3, .error e) => (s3, .error e)

/-- The method of src/main.py for the operator &.  The `type(other) != Corpus` guard is
discharged by typing (`other : CorpusObj`); the new speaker set is
`self.speakers & other.speakers` and recordings are rebuilt from
`self.dataset_path`. -/
def corpusAnd (fsys : FSys) (s : Store) (self other : CorpusObj) :
    Store × Except PyErr CorpusObj :=
  let sc := make_corpus s self.dataset_path
  let s1 := sc.1
  let nc := sc.2
  let newSpk := s1.getSet self.speakersRef ∩ s1.getSet other.speakersRef
  let s2 : Store := ⟨s1.lists, s1.sets ++ [newSpk]⟩
  let spkRef := s1.sets.length
  match buildRecs fsys self.dataset_path nc.recordingsRef s2 (setIter newSpk) with
  | (s3, .ok _) => (s3, .ok ⟨nc.dataset_path, nc.recordingsRef, spkRef⟩)
  | (s3, .error e) => (s3, .error e)

/-- The method of src/main.py for len(corpus): `len(self.speakers)`. -/
def corpusLen (s : Store) (c : CorpusObj) : Nat := (s.getSet c.speakersRef).card

/-- Pure description of the rebuild scan of one speaker (spec side of the
store-threaded `addDirRecs`): the decoded recordings of a glob result,
failing as soon as one file fails. -/
def readDirRecs : List (String × List Nat) → Except PyErr (List Recording)
  | [] => .ok []
  | (name, bytes) :: rest =>
    match read_recording name bytes with
    | .error e => .error e
    | .ok rec =>
      match readDirRecs rest with
      | .error e => .error e
      | .ok l => .ok (rec :: l)

/-- Pure description of the whole rebuild: recordings globbed from
`Path(path, speaker)` for each speaker, concatenated in iteration order. -/
def globRecordings (fsys : FSys) (path : String) : List String → Except PyErr (List Recording)
  | [] => .ok []
  | sp :: rest =>
    match readDirRecs (fsys.wavFiles path sp) with
    | .error e => .error e
    | .ok l =>
      match globRecordings fsys path rest with
      | .error e => .error e
      | .ok l2 => .ok (l ++ l2)

/-- A canonical 44-byte WAV header with n_channels = 1, fs = 8000 and
bits_per_sample = 16 (RIFF descriptor + fmt subchunk + empty data chunk),
used as a concrete fixture. -/
def hdr16 : List Nat :=
  [82, 73, 70, 70, 36, 0, 0, 0, 87, 65, 86, 69, 102, 109, 116, 32,
   16, 0, 0, 0, 1, 0, 1, 0, 64, 31, 0, 0, 128, 62, 0, 0, 2, 0, 16, 0,
   100, 97, 116, 97, 0, 0, 0, 0]

/-- The 32000-sample fixture of the spec: a canonical header with n_channels = 1,
fs = 16000, bits_per_sample = 16 followed by 64000 payload bytes
(= 32000 interleaved 16-bit samples). -/
def wavHdr16k : List Nat :=
  [82, 73, 70, 70, 36, 250, 0, 0, 87, 65, 86, 69, 102, 109, 116, 32,
   16, 0, 0, 0, 1, 0, 1, 0, 128, 62, 0, 0, 0, 125, 0, 0, 2, 0, 16, 0,
   100, 97, 116, 97, 0, 250, 0, 0]

def exBytes : List Nat := wavHdr16k ++ List.replicate 64000 0

/-- Variant of `hdr16` with the bits-per-sample field (absolute offset 34) set to 8. -/
def hdr8 : List Nat :=
  [82, 73, 70, 70, 36, 0, 0, 0, 87, 65, 86, 69, 102, 109, 116, 32,
   16, 0, 0, 0, 1, 0, 1, 0, 64, 31, 0, 0, 128, 62, 0, 0, 1, 0, 8, 0,
   100, 97, 116, 97, 0, 0, 0, 0]

/-- Spec-side value of a plain decimal digit string. -/
def pyDigitsVal (l : List Char) : Nat := l.foldl (fun a c => a * 10 + digitVal c) 0


/-- Concrete fixture: a filesystem with no metadata files and no WAV files. -/
def emptyFS : FSys := ⟨fun _ => [], fun _ _ => []⟩

/-- Concrete fixture recording for the length claim. -/
def sampleRec : Recording := ⟨3, 7, "jk", ⟨16, (0 : ℚ) / (8000 : ℚ), "3_jk_07.wav", 8000, 1, []⟩⟩
def lenStore : Store := ⟨[[sampleRec, sampleRec]], [{"aa"}]⟩
def lenCorpus : CorpusObj := ⟨"p", 0, 0⟩

/-! ## Characterization of a successful WAV decode -/

/-- Every successfully decoded `WAVFile` is exactly the structure assembled
from the three little-endian header fields at absolute offsets 22, 24 and 34
and the payload decoded from absolute offset 44, with a supported bit depth
and a nonzero sample rate. -/
theorem read_wavfile_ok (name : String) (b : List Nat) (w : WAVFile)
    (h : read_wavfile name b = .ok w) :
    w = ⟨u16le b 34,
         ((decodeAtWidth (u16le b 34) (pcmPayload b)).length : ℚ) / ((u32le b 24 : Nat) : ℚ),
         name, u32le b 24, u16le b 22, decodeAtWidth (u16le b 34) (pcmPayload b)⟩
      ∧ u32le b 24 ≠ 0
      ∧ (u16le b 34 = 16 ∨ u16le b 34 = 32 ∨ u16le b 34 = 64) := by
  simp only [read_wavfile] at h
  split at h
  · exact absurd h (by simp)
  · rename_i nch p1 heq1
    split at h
    · exact absurd h (by simp)
    · rename_i fs p2 heq2
      split at h
      · exact absurd h (by simp)
      · rename_i bits p3 heq3
        rw [npScalar] at heq1 heq2 heq3
        split at heq1
        · injection heq1 with h1a h1b
          injection h1a with h1a
          split at heq2
          · injection heq2 with h2a h2b
            injection h2a with h2a
            split at heq3
            · injection heq3 with h3a h3b
              injection h3a with h3a
              subst h1b h2b h3b
              subst h1a h2a h3a
              norm_num at h ⊢
              split at h
              · exact absurd h (by simp)
              · rename_i data heq
                split at h
                · exact absurd h (by simp)
                · rename_i hfs
                  rw [Except.ok.injEq] at h
                  subst h
                  split at heq
                  · rename_i hb16
                    injection heq with heq
                    subst heq
                    simp [u16le, u32le, decodeAtWidth, pcmPayload, hb16, hfs]
                  · split at heq
                    · rename_i hne16 hb32
                      injection heq with heq
                      subst heq
                      simp [u16le, u32le, decodeAtWidth, pcmPayload, hne16, hb32, hfs]
                    · split at heq
                      · rename_i hne16 hne32 hb64
                        injection heq with heq
                        subst heq
                        simp [u16le, u32le, decodeAtWidth, pcmPayload, hne16, hne32, hb64, hfs]
                      · exact absurd heq (by simp)
            · exact absurd heq3 (by simp)
          · exact absurd heq2 (by simp)
        · exact absurd heq1 (by simp)

/-- Claim C2: for every input file, the channel count of the decoder comes from the
16-bit little-endian field at absolute byte offset 22, the sample rate from
the 32-bit field at absolute offset 24, the bits-per-sample from the 16-bit
field at absolute offset 34, and the sample data from the bytes at absolute
offset 44 onward interpreted at the width bits_per_sample selects. -/
theorem wav_header_offsets (name : String) (b : List Nat) (w : WAVFile)
    (h : read_wavfile name b = .ok w) :
    w.n_channels = u16le b 22 ∧ w.fs = u32le b 24 ∧
      w.bits_per_sample = u16le b 34 ∧
      w.data = decodeAtWidth w.bits_per_sample (pcmPayload b) := by
  obtain ⟨hw, -, -⟩ := read_wavfile_ok name b w h
  subst hw
  exact ⟨rfl, rfl, rfl, rfl⟩

theorem wav_header_offsets_witness :
    (1 : Nat) = u16le hdr16 22 ∧ (8000 : Nat) = u32le hdr16 24 ∧
      (16 : Nat) = u16le hdr16 34 ∧
      ([] : List Int) = decodeAtWidth 16 (pcmPayload hdr16) :=
  wav_header_offsets "w.wav" hdr16
    ⟨16, (0 : ℚ) / (8000 : ℚ), "w.wav", 8000, 1, []⟩ (by rfl)

/-! ## Claim C1: the duration invariant -/

theorem chunk2_cons (a b : Nat) (r : List Nat) :
    chunk2 (a :: b :: r) = [a, b] :: chunk2 r := rfl

theorem chunk2_replicate (n a : Nat) :
    chunk2 (List.replicate (2 * n) a) = List.replicate n [a, a] := by
  induction n with
  | zero => rfl
  | succ k ih =>
    have h2 : 2 * (k + 1) = (2 * k) + 1 + 1 := by ring
    rw [h2, List.replicate_succ, List.replicate_succ, chunk2_cons, ih,
      List.replicate_succ]

theorem leNat_two (b : List Nat) (s : Nat) :
    leNat b s 2 = byteAt b s + 256 * (byteAt b (s + 1) + 256 * 0) := rfl

theorem leNat_four (b : List Nat) (s : Nat) :
    leNat b s 4 = byteAt b s + 256 * (byteAt b (s + 1) +
      256 * (byteAt b (s + 2) + 256 * (byteAt b (s + 3) + 256 * 0))) := rfl

/-- Forward evaluation of `read_wavfile` on a long-enough 16-bit file. -/
theorem read_wavfile_eval16 (name : String) (b : List Nat) (hlen : 36 ≤ b.length)
    (hb : u16le b 34 = 16) (hfs : u32le b 24 ≠ 0) :
    read_wavfile name b =
      .ok ⟨16, ((decode16 (b.drop 44)).length : ℚ) / ((u32le b 24 : Nat) : ℚ),
           name, u32le b 24, u16le b 22, decode16 (b.drop 44)⟩ := by
  have c1 : 0 + 22 + 2 ≤ b.length := by omega
  have c2 : 0 + 22 + 2 + 0 + 4 ≤ b.length := by omega
  have c3 : 0 + 22 + 2 + 0 + 4 + 6 + 2 ≤ b.length := by omega
  rw [u16le] at hb
  rw [u32le] at hfs
  simp only [read_wavfile, npScalar, if_pos c1, if_pos c2, if_pos c3, hb, if_true,
    u16le, u32le]
  norm_num [hfs]

/-- Claim C1: every successfully decoded WAVFile satisfies
`duration = len(data) / fs` where `len(data)` counts all interleaved samples;
and the fixture of the spec (bits_per_sample = 16, fs = 16000, one channel,
32000 raw interleaved samples) decodes to n_channels = 1, fs = 16000,
duration = 2.0. -/
theorem wav_duration_spec :
    (∀ (name : String) (b : List Nat) (w : WAVFile), read_wavfile name b = .ok w →
      w.duration = (w.data.length : ℚ) / ((w.fs : Nat) : ℚ))
    ∧ (∃ w, read_wavfile "ex.wav" exBytes = .ok w ∧
        w.n_channels = 1 ∧ w.fs = 16000 ∧ w.duration = 2 ∧ w.data.length = 32000) := by
  constructor
  · intro name b w h
    obtain ⟨hw, -, -⟩ := read_wavfile_ok name b w h
    subst hw
    rfl
  · have h44 : wavHdr16k.length = 44 := rfl
    have hlen : exBytes.length = 64044 := by
      rw [exBytes, List.length_append, h44, List.length_replicate]
    have hdrop : exBytes.drop 44 = List.replicate 64000 0 := by
      rw [exBytes, ← h44]
      exact List.drop_left _ _
    have hb22 : byteAt exBytes 22 = 1 := by
      rw [byteAt, exBytes, List.getD_append _ _ _ _ (by rw [h44]; omega)]; rfl
    have hb23 : byteAt exBytes 23 = 0 := by
      rw [byteAt, exBytes, List.getD_append _ _ _ _ (by rw [h44]; omega)]; rfl
    have hb24 : byteAt exBytes 24 = 128 := by
      rw [byteAt, exBytes, List.getD_append _ _ _ _ (by rw [h44]; omega)]; rfl
    have hb25 : byteAt exBytes 25 = 62 := by
      rw [byteAt, exBytes, List.getD_append _ _ _ _ (by rw [h44]; omega)]; rfl
    have hb26 : byteAt exBytes 26 = 0 := by
      rw [byteAt, exBytes, List.getD_append _ _ _ _ (by rw [h44]; omega)]; rfl
    have hb27 : byteAt exBytes 27 = 0 := by
      rw [byteAt, exBytes, List.getD_append _ _ _ _ (by rw [h44]; omega)]; rfl
    have hb34 : byteAt exBytes 34 = 16 := by
      rw [byteAt, exBytes, List.getD_append _ _ _ _ (by rw [h44]; omega)]; rfl
    have hb35 : byteAt exBytes 35 = 0 := by
      rw [byteAt, exBytes, List.getD_append _ _ _ _ (by rw [h44]; omega)]; rfl
    have hch : u16le exBytes 22 = 1 := by
      rw [u16le, leNat_two, hb22, hb23]
    have hbits : u16le exBytes 34 = 16 := by
      rw [u16le, leNat_two, hb34, hb35]
    have hrate : u32le exBytes 24 = 16000 := by
      rw [u32le, leNat_four, hb24, hb25, hb26, hb27]
    have hdata : decode16 (exBytes.drop 44) = List.replicate 32000 (0 : Int) := by
      rw [hdrop, show (64000 : Nat) = 2 * 32000 by norm_num, decode16, chunk2_replicate,
        List.map_replicate]
      rfl
    refine ⟨_, read_wavfile_eval16 "ex.wav" exBytes (by omega) hbits (by rw [hrate]; norm_num),
      hch, hrate, ?_, ?_⟩
    · show ((decode16 (exBytes.drop 44)).length : ℚ) / ((u32le exBytes 24 : Nat) : ℚ) = 2
      rw [hdata, hrate, List.length_replicate]
      norm_num
    · show (decode16 (exBytes.drop 44)).length = 32000
      rw [hdata, List.length_replicate]

theorem wav_duration_spec_witness :
    (⟨16, (0 : ℚ) / (8000 : ℚ), "w.wav", 8000, 1, []⟩ : WAVFile).duration =
      (((⟨16, (0 : ℚ) / (8000 : ℚ), "w.wav", 8000, 1, []⟩ : WAVFile).data.length : Nat) : ℚ) /
        (((⟨16, (0 : ℚ) / (8000 : ℚ), "w.wav", 8000, 1, []⟩ : WAVFile).fs : Nat) : ℚ) :=
  wav_duration_spec.1 "w.wav" hdr16 _ (by rfl)

/-! ## Claim C4: unsupported bit depths -/

/-- Claim C4 counterexample: on this concrete file with bits_per_sample = 8 the
decoder raises a NameError (the `data` variable is never bound) — it neither
produces a WAVFile with empty sample data nor raises an explicit
"unsupported bit depth" error. -/
theorem wav_unsupported_bits_cex :
    read_wavfile "w.wav" hdr8 = .error .nameError ∧
      PyErr.nameError ≠ PyErr.unsupportedBitDepth := by
  exact ⟨by rfl, by decide⟩

/-- Claim C4 amended: for every input long enough that all three header reads
succeed, a bits-per-sample value outside {16, 32, 64} makes the decoder fail
with a NameError (from the unbound `data` variable) rather than an explicit
"unsupported bit depth" error; no WAVFile is produced, so the payload is
never interpreted at a wrong width. -/
theorem wav_unsupported_bits_name_error (name : String) (b : List Nat)
    (hlen : 36 ≤ b.length) (h16 : u16le b 34 ≠ 16) (h32 : u16le b 34 ≠ 32)
    (h64 : u16le b 34 ≠ 64) :
    read_wavfile name b = .error .nameError := by
  have c1 : 0 + 22 + 2 ≤ b.length := by omega
  have c2 : 0 + 22 + 2 + 0 + 4 ≤ b.length := by omega
  have c3 : 0 + 22 + 2 + 0 + 4 + 6 + 2 ≤ b.length := by omega
  rw [u16le] at h16 h32 h64
  simp only [read_wavfile, npScalar, if_pos c1, if_pos c2, if_pos c3, h16, h32, h64,
    if_false, if_neg]

theorem wav_unsupported_bits_name_error_witness :
    read_wavfile "w.wav" hdr8 = .error .nameError :=
  wav_unsupported_bits_name_error "w.wav" hdr8 (by decide) (by decide) (by decide)
    (by decide)

/-! ## Claims C5 and C6: filename parsing -/

theorem pyIntLoop_cons_digit (acc : Nat) (c : Char) (rest : List Char)
    (h : c.isDigit = true) :
    pyIntLoop acc (c :: rest) = pyIntLoop (acc * 10 + digitVal c) rest := by
  rw [pyIntLoop.eq_def]
  simp [h]

theorem digit_not_ws (c : Char) (h : c.isDigit = true) : c.isWhitespace = false := by
  cases hw : c.isWhitespace with
  | false => rfl
  | true =>
    exfalso
    simp [Char.isWhitespace] at hw
    rcases hw with ((rfl | rfl) | rfl) | rfl <;> exact absurd h (by decide)

theorem pyStrip_eq_self (l : List Char) (h : ∀ c ∈ l, c.isWhitespace = false) :
    pyStrip l = l := by
  unfold pyStrip
  have h1 : l.dropWhile Char.isWhitespace = l := by
    cases l with
    | nil => rfl
    | cons a t => rw [List.dropWhile_cons, h a (by simp)]; simp
  rw [h1]
  have h2 : l.reverse.dropWhile Char.isWhitespace = l.reverse := by
    cases hr : l.reverse with
    | nil => rfl
    | cons a t =>
      have ha : a ∈ l := by rw [← List.mem_reverse, hr]; simp
      rw [List.dropWhile_cons, h a ha]; simp
  rw [h2, List.reverse_reverse]

theorem pyIntLoop_digits (l : List Char) (h : ∀ c ∈ l, c.isDigit = true) (acc : Nat) :
    pyIntLoop acc l = some (l.foldl (fun a c => a * 10 + digitVal c) acc) := by
  induction l generalizing acc with
  | nil => rfl
  | cons c r ih =>
    rw [pyIntLoop_cons_digit acc c r (h c (by simp)), List.foldl_cons]
    exact ih (fun x hx => h x (by simp [hx])) _

theorem pyInt_digits (l : List Char) (hne : l ≠ []) (h : ∀ c ∈ l, c.isDigit = true) :
    pyInt (String.mk l) = some ((pyDigitsVal l : Nat) : Int) := by
  rw [pyInt, show (String.mk l).data = l from rfl,
    pyStrip_eq_self l (fun c hc => digit_not_ws c (h c hc))]
  cases l with
  | nil => exact absurd rfl hne
  | cons c r =>
    have hc := h c (by simp)
    have hcm : ¬(c = '-') := by intro e; rw [e] at hc; exact absurd hc (by decide)
    have hcp : ¬(c = '+') := by intro e; rw [e] at hc; exact absurd hc (by decide)
    rw [pyIntCore, pyIntSigned.eq_def, if_neg hcm, if_neg hcp, if_pos hc,
      pyIntLoop_digits r (fun x hx => h x (by simp [hx]))]
    simp [pyDigitsVal, List.foldl_cons]

theorem pyFindAux_append_notin (l r : List Char) (c : Char) (h : ∀ x ∈ l, ¬(x = c)) :
    pyFindAux c (l ++ c :: r) = some l.length := by
  induction l with
  | nil => simp [pyFindAux]
  | cons a t ih =>
    rw [List.cons_append, pyFindAux, if_neg (h a (by simp)),
      ih (fun x hx => h x (by simp [hx]))]
    rfl

theorem pySlice_2_4 (x1 x2 x3 x4 : Char) (t : List Char) :
    pySlice (x1 :: x2 :: x3 :: x4 :: t) 2 4 = [x3, x4] := by
  rw [pySlice, pyBound, pyBound, if_neg (by omega), if_neg (by omega)]
  rw [show (Int.toNat 4) = 4 from rfl, show (Int.toNat 2) = 2 from rfl]
  rw [Nat.min_eq_left (by simp only [List.length_cons]; omega),
    Nat.min_eq_left (by simp only [List.length_cons]; omega)]
  rfl

theorem pySlice_middle (p m s : List Char) :
    pySlice (p ++ m ++ s) (p.length : Int) ((p.length : Int) + (m.length : Int)) = m := by
  rw [pySlice, pyBound, pyBound, if_neg (by omega), if_neg (by omega)]
  rw [show ((p.length : Int) + (m.length : Int)).toNat = p.length + m.length by omega]
  rw [Int.toNat_natCast]
  rw [Nat.min_eq_left (by simp only [List.length_append]; omega),
    Nat.min_eq_left (by simp only [List.length_append]; omega)]
  have h1 : (p ++ m ++ s).take (p.length + m.length) = p ++ m := by
    rw [← List.length_append]
    exact List.take_left _ _
  rw [h1]
  exact List.drop_left _ _

/-- Claim C5: for every filename following the positional convention
`<digit><separator><2-char alias>_<index>.wav` (leading digit character, alias
at character positions 2-3, index the digit characters from position 5 up to
the first dot) the Recording Loader extracts the digit as the integer value of
the first character, the speaker as the substring at positions 2-3, and the
index as the integer value of positions 5 up to the first dot; in particular
"3_jk_07.wav" yields digit = 3, speaker = "jk", index = 7. -/
theorem recording_filename_parse :
    (∀ (d sep a b : Char) (ix : List Char) (bytes : List Nat) (w : WAVFile),
      d.isDigit = true → ¬(sep = '.') → ¬(a = '.') → ¬(b = '.') →
      ix ≠ [] → (∀ c ∈ ix, c.isDigit = true) →
      read_wavfile (String.mk (d :: sep :: a :: b :: '_' :: (ix ++ ['.', 'w', 'a', 'v']))) bytes
        = .ok w →
      read_recording (String.mk (d :: sep :: a :: b :: '_' :: (ix ++ ['.', 'w', 'a', 'v']))) bytes
        = .ok ⟨(digitVal d : Nat), (pyDigitsVal ix : Nat), String.mk [a, b], w⟩)
    ∧ read_recording "3_jk_07.wav" hdr16 =
        .ok ⟨3, 7, "jk", ⟨16, (0 : ℚ) / (8000 : ℚ), "3_jk_07.wav", 8000, 1, []⟩⟩ := by
  constructor
  · intro d sep a b ix bytes w hd hsep ha hb hne hdig hwav
    have hdata : (String.mk (d :: sep :: a :: b :: '_' :: (ix ++ ['.', 'w', 'a', 'v']))).data
        = d :: sep :: a :: b :: '_' :: (ix ++ ['.', 'w', 'a', 'v']) := rfl
    have hd1 : pyInt (String.mk [d]) = some ((pyDigitsVal [d] : Nat) : Int) :=
      pyInt_digits [d] (by simp) (by simpa using hd)
    have hd1v : pyDigitsVal [d] = digitVal d := by simp [pyDigitsVal]
    rw [hd1v] at hd1
    have hshape : d :: sep :: a :: b :: '_' :: (ix ++ ['.', 'w', 'a', 'v'])
        = (([d, sep, a, b, '_'] ++ ix) ++ ('.' :: ['w', 'a', 'v'])) := by
      simp
    have hfind : pyFind (String.mk (d :: sep :: a :: b :: '_' :: (ix ++ ['.', 'w', 'a', 'v']))) '.'
        = ((5 + ix.length : Nat) : Int) := by
      rw [pyFind, show (String.mk (d :: sep :: a :: b :: '_' :: (ix ++ ['.', 'w', 'a', 'v']))).data
          = d :: sep :: a :: b :: '_' :: (ix ++ ['.', 'w', 'a', 'v']) from rfl, hshape]
      rw [pyFindAux_append_notin ([d, sep, a, b, '_'] ++ ix) ['w', 'a', 'v'] '.'
        (by
          intro x hx
          simp at hx
          rcases hx with rfl | rfl | rfl | rfl | rfl | hx
          · intro e; rw [e] at hd; exact absurd hd (by decide)
          · exact hsep
          · exact ha
          · exact hb
          · decide
          · intro e
            rw [e] at hx
            have := hdig '.' hx
            exact absurd this (by decide))]
      simp [List.length_append]
      omega
    -- index slice
    have hslice : pySlice (d :: sep :: a :: b :: '_' :: (ix ++ ['.', 'w', 'a', 'v'])) 5
        ((5 + ix.length : Nat) : Int) = ix := by
      have h5 : (([d, sep, a, b, '_'] : List Char).length : Int) = (5 : Int) := rfl
      have h5' : ((5 + ix.length : Nat) : Int)
          = (([d, sep, a, b, '_'] : List Char).length : Int) + (ix.length : Int) := by
        rw [h5]; omega
      rw [hshape, h5']
      exact pySlice_middle [d, sep, a, b, '_'] ix ('.' :: ['w', 'a', 'v'])
    have hix : pyInt (String.mk ix) = some ((pyDigitsVal ix : Nat) : Int) :=
      pyInt_digits ix hne hdig
    have hspk : pySlice (d :: sep :: a :: b :: '_' :: (ix ++ ['.', 'w', 'a', 'v'])) 2 4 = [a, b] :=
      pySlice_2_4 d sep a b _
    rw [read_recording]
    simp only [hdata, List.head?_cons, hd1, hfind, hslice, hix, hspk, hwav]
  · rfl

theorem recording_filename_parse_witness :
    read_recording (String.mk ('5' :: '_' :: 'a' :: 'b' :: '_' :: (['1', '2'] ++ ['.', 'w', 'a', 'v']))) hdr16
      = .ok ⟨(digitVal '5' : Nat), (pyDigitsVal ['1', '2'] : Nat), String.mk ['a', 'b'],
             ⟨16, (0 : ℚ) / (8000 : ℚ),
              String.mk ('5' :: '_' :: 'a' :: 'b' :: '_' :: (['1', '2'] ++ ['.', 'w', 'a', 'v'])),
              8000, 1, []⟩⟩ :=
  recording_filename_parse.1 '5' '_' 'a' 'b' ['1', '2'] hdr16 _ (by decide) (by decide)
    (by decide) (by decide) (by decide) (by decide) (by rfl)

/-- Claim C6 counterexample: the filename "1abc123.wav" does not match the
positional convention (its character at index 4 is not the underscore
separator, and no underscore precedes the index), yet the Recording Loader
succeeds on it, extracting digit = 1, speaker = "bc", index = 23. -/
theorem recording_nonconforming_cex :
    read_recording "1abc123.wav" hdr16 =
      .ok ⟨1, 23, "bc", ⟨16, (0 : ℚ) / (8000 : ℚ), "1abc123.wav", 8000, 1, []⟩⟩
    ∧ "1abc123.wav".data.getD 4 ' ' ≠ '_' :=
  ⟨by rfl, by decide⟩

/-- Claim C6 amended: the Recording Loader fails with a parse error exactly on the
conversions it actually performs — an empty name (IndexError on `name[0]`), a
first character that is not a valid integer literal, or an index substring
`name[5:name.find(".")]` that is not a valid integer literal.  The speaker
slice `name[2:4]` clamps and never fails, and the separator positions are
never validated, so some names violating the convention still parse. -/
theorem recording_parse_failure :
    (∀ bytes : List Nat, read_recording "" bytes = .error .indexError)
    ∧ (∀ (name : String) (bytes : List Nat) (c0 : Char), name.data.head? = some c0 →
        pyInt (String.mk [c0]) = none → read_recording name bytes = .error .valueError)
    ∧ (∀ (name : String) (bytes : List Nat),
        pyInt (String.mk (pySlice name.data 5 (pyFind name '.'))) = none →
        ∃ e, read_recording name bytes = .error e) := by
  refine ⟨fun bytes => rfl, ?_, ?_⟩
  · intro name bytes c0 h0 hp
    rw [read_recording, h0]
    simp only [hp]
  · intro name bytes hp
    rw [read_recording]
    cases h0 : name.data.head? with
    | none => exact ⟨.indexError, rfl⟩
    | some c0 =>
      cases hd : pyInt (String.mk [c0]) with
      | none =>
        refine ⟨.valueError, ?_⟩
        simp only [hd]
      | some dv =>
        refine ⟨.valueError, ?_⟩
        simp only [hp, hd]

theorem recording_parse_failure_witness :
    read_recording "x.wav" [] = .error .valueError :=
  recording_parse_failure.2.1 "x.wav" [] 'x' rfl (by decide)

/-! ## Store lemmas for the Corpus claims -/

theorem getD_set_ne {α : Type} (l : List α) (i j : Nat) (v d : α) (h : i ≠ j) :
    (l.set i v).getD j d = l.getD j d := by
  simp [List.getD, List.getElem?_set_ne h]

theorem getD_set_self {α : Type} (l : List α) (i : Nat) (v d : α) (h : i < l.length) :
    (l.set i v).getD i d = v := by
  simp [List.getD, List.getElem?_set_self, h]

theorem getD_concat_length {α : Type} (l : List α) (x d : α) :
    (l ++ [x]).getD l.length d = x := by
  rw [List.getD_append_right _ _ _ _ (le_refl _)]
  simp

theorem getD_append_lt {α : Type} (l l2 : List α) (r : Nat) (d : α) (h : r < l.length) :
    (l ++ l2).getD r d = l.getD r d := List.getD_append _ _ _ _ h

theorem getD_append_default {α : Type} (l : List α) (d : α) (r : Nat) :
    (l ++ [d]).getD r d = l.getD r d := by
  rcases lt_or_ge r l.length with h | h
  · exact List.getD_append _ _ _ _ h
  · rw [List.getD_append_right _ _ _ _ h, List.getD_eq_default _ _ h]
    cases hr : r - l.length with
    | zero => rfl
    | succ k => simp [List.getD]

theorem appendRec_getList_ne (s : Store) (ref i : Nat) (hne : i ≠ ref) (rec : Recording) :
    (s.appendRec ref rec).getList i = s.getList i :=
  getD_set_ne _ _ _ _ _ (fun e => hne e.symm)

theorem addDirRecs_sets (ref : Nat) (files : List (String × List Nat)) :
    ∀ s : Store, ((addDirRecs ref s files).1).sets = s.sets := by
  induction files with
  | nil => intro s; rfl
  | cons f rest ih =>
    intro s
    obtain ⟨name, bytes⟩ := f
    rw [addDirRecs]
    cases hrr : read_recording name bytes with
    | error e => rfl
    | ok rec => exact ih (s.appendRec ref rec)

theorem addDirRecs_getList_ne (ref i : Nat) (hne : i ≠ ref) (files : List (String × List Nat)) :
    ∀ s : Store, ((addDirRecs ref s files).1).getList i = s.getList i := by
  induction files with
  | nil => intro s; rfl
  | cons f rest ih =>
    intro s
    obtain ⟨name, bytes⟩ := f
    rw [addDirRecs]
    cases hrr : read_recording name bytes with
    | error e => rfl
    | ok rec => exact (ih (s.appendRec ref rec)).trans (appendRec_getList_ne s ref i hne rec)

theorem buildRecs_sets (fsys : FSys) (path : String) (ref : Nat) (sp : List String) :
    ∀ s : Store, ((buildRecs fsys path ref s sp).1).sets = s.sets := by
  induction sp with
  | nil => intro s; rfl
  | cons a rest ih =>
    intro s
    rw [buildRecs]
    have hads := addDirRecs_sets ref (fsys.wavFiles path a) s
    cases had : addDirRecs ref s (fsys.wavFiles path a) with
    | mk s2 r =>
      rw [had] at hads
      cases r with
      | ok u => exact (ih s2).trans hads
      | error e => exact hads

theorem buildRecs_getList_ne (fsys : FSys) (path : String) (ref i : Nat) (hne : i ≠ ref)
    (sp : List String) :
    ∀ s : Store, ((buildRecs fsys path ref s sp).1).getList i = s.getList i := by
  induction sp with
  | nil => intro s; rfl
  | cons a rest ih =>
    intro s
    rw [buildRecs]
    have hads := addDirRecs_getList_ne ref i hne (fsys.wavFiles path a) s
    cases had : addDirRecs ref s (fsys.wavFiles path a) with
    | mk s2 r =>
      rw [had] at hads
      cases r with
      | ok u => exact (ih s2).trans hads
      | error e => exact hads

theorem appendRec_getList_self (s : Store) (ref : Nat) (rec : Recording)
    (h : ref < s.lists.length) :
    (s.appendRec ref rec).getList ref = s.getList ref ++ [rec] :=
  getD_set_self _ _ _ _ h

theorem appendRec_length (s : Store) (ref : Nat) (rec : Recording) :
    (s.appendRec ref rec).lists.length = s.lists.length := by
  simp [Store.appendRec]

theorem addDirRecs_ok (ref : Nat) (files : List (String × List Nat)) :
    ∀ (s s2 : Store) (u : Unit), addDirRecs ref s files = (s2, .ok u) →
      ref < s.lists.length →
      s2.lists.length = s.lists.length ∧ s2.sets = s.sets ∧
      ∃ rs, readDirRecs files = .ok rs ∧ s2.getList ref = s.getList ref ++ rs := by
  induction files with
  | nil =>
    intro s s2 u h href
    injection h with h1 h2
    subst h1
    exact ⟨rfl, rfl, [], rfl, by simp⟩
  | cons f rest ih =>
    intro s s2 u h href
    obtain ⟨name, bytes⟩ := f
    rw [addDirRecs] at h
    cases hrr : read_recording name bytes with
    | error e =>
      rw [hrr] at h
      exact absurd h (by simp)
    | ok rec =>
      rw [hrr] at h
      obtain ⟨hlen, hsets, rs, hread, hget⟩ :=
        ih (s.appendRec ref rec) s2 u h (by rw [appendRec_length]; exact href)
      refine ⟨hlen.trans (appendRec_length s ref rec), hsets, rec :: rs, ?_, ?_⟩
      · rw [readDirRecs, hrr, hread]
      · rw [hget, appendRec_getList_self s ref rec href]
        simp

theorem buildRecs_ok (fsys : FSys) (path : String) (ref : Nat) (sp : List String) :
    ∀ (s s2 : Store) (u : Unit), buildRecs fsys path ref s sp = (s2, .ok u) →
      ref < s.lists.length →
      s2.lists.length = s.lists.length ∧ s2.sets = s.sets ∧
      ∃ rs, globRecordings fsys path sp = .ok rs ∧ s2.getList ref = s.getList ref ++ rs := by
  induction sp with
  | nil =>
    intro s s2 u h href
    injection h with h1 h2
    subst h1
    exact ⟨rfl, rfl, [], rfl, by simp⟩
  | cons a rest ih =>
    intro s s2 u h href
    rw [buildRecs] at h
    cases had : addDirRecs ref s (fsys.wavFiles path a) with
    | mk sm r =>
      rw [had] at h
      cases r with
      | error e => exact absurd h (by simp)
      | ok u2 =>
        obtain ⟨hlen1, hsets1, rs1, hread1, hget1⟩ := addDirRecs_ok ref _ s sm u2 had href
        obtain ⟨hlen2, hsets2, rs2, hglob2, hget2⟩ :=
          ih sm s2 u h (by rw [hlen1]; exact href)
        refine ⟨hlen2.trans hlen1, hsets2.trans hsets1, rs1 ++ rs2, ?_, ?_⟩
        · rw [globRecordings, hread1, hglob2]
        · rw [hget2, hget1]
          simp

theorem getSet_mk (lists : List (List Recording)) (sets : List (Finset String)) (r : Nat) :
    Store.getSet ⟨lists, sets⟩ r = sets.getD r ∅ := rfl

theorem getList_mk (lists : List (List Recording)) (sets : List (Finset String)) (r : Nat) :
    Store.getList ⟨lists, sets⟩ r = lists.getD r [] := rfl

/-- Common properties of the rebuild tail shared by all four corpus
operations, given that its `buildRecs` run succeeded. -/
theorem opCore (fsys : FSys) (path : String) (s : Store) (newSpk : Finset String)
    (s3 : Store) (u : Unit)
    (heq : buildRecs fsys path s.lists.length
      ⟨s.lists ++ [[]], (s.sets ++ [∅]) ++ [newSpk]⟩ (setIter newSpk) = (s3, .ok u)) :
    (∀ i, i < s.lists.length → s3.getList i = s.getList i)
    ∧ (∀ j, j < s.sets.length → s3.getSet j = s.getSet j)
    ∧ s3.getSet ((s.sets ++ [∅]).length) = newSpk
    ∧ globRecordings fsys path (setIter newSpk) = .ok (s3.getList s.lists.length) := by
  have hsets : s3.sets = (s.sets ++ [∅]) ++ [newSpk] := by
    have := buildRecs_sets fsys path s.lists.length (setIter newSpk)
      ⟨s.lists ++ [[]], (s.sets ++ [∅]) ++ [newSpk]⟩
    rw [heq] at this
    exact this
  obtain ⟨hlen, -, rs, hglob, hget⟩ := buildRecs_ok fsys path s.lists.length (setIter newSpk)
    ⟨s.lists ++ [[]], (s.sets ++ [∅]) ++ [newSpk]⟩ s3 u heq (by simp)
  refine ⟨?_, ?_, ?_, ?_⟩
  · intro i hi
    have hb := buildRecs_getList_ne fsys path s.lists.length i (by omega) (setIter newSpk)
      ⟨s.lists ++ [[]], (s.sets ++ [∅]) ++ [newSpk]⟩
    rw [heq] at hb
    rw [hb, getList_mk, getD_append_lt _ _ _ _ hi]
    rfl
  · intro j hj
    rw [Store.getSet, hsets, getD_append_lt _ _ _ _ (by simp; omega),
      getD_append_lt _ _ _ _ hj]
    rfl
  · rw [Store.getSet, hsets, getD_concat_length]
  · rw [hget, getList_mk, getD_concat_length]
    rw [hglob]
    simp

theorem add_speakers_ok (fsys : FSys) (s : Store) (self : CorpusObj) (names : List String)
    (s2 : Store) (c : CorpusObj) (h : add_speakers fsys s self names = (s2, .ok c)) :
    c = ⟨self.dataset_path, s.lists.length, s.sets.length + 1⟩
    ∧ (∀ i, i < s.lists.length → s2.getList i = s.getList i)
    ∧ (∀ j, j < s.sets.length → s2.getSet j = s.getSet j)
    ∧ s2.getSet c.speakersRef = s.getSet self.speakersRef ∪ names.toFinset
    ∧ globRecordings fsys self.dataset_path (setIter (s2.getSet c.speakersRef))
        = .ok (s2.getList c.recordingsRef) := by
  have hns : Store.getSet ⟨s.lists ++ [[]], s.sets ++ [∅]⟩ self.speakersRef
      = s.getSet self.speakersRef := getD_append_default _ _ _
  simp only [add_speakers, make_corpus] at h
  split at h
  · rename_i s3 u heq
    injection h with h1 h2
    subst h1
    injection h2 with h2
    subst h2
    rw [hns] at heq
    obtain ⟨hframeL, hframeS, hnew, hglob⟩ :=
      opCore fsys self.dataset_path s _ s3 u heq
    have hc : ((s.sets ++ [∅]).length) = s.sets.length + 1 := by simp
    refine ⟨by rw [← hc], hframeL, hframeS, ?_, ?_⟩
    · show s3.getSet ((s.sets ++ [∅]).length) = _
      rw [hnew]
    · show globRecordings fsys self.dataset_path
        (setIter (s3.getSet ((s.sets ++ [∅]).length))) = .ok (s3.getList s.lists.length)
      rw [hnew]
      exact hglob
  · exact absurd h (by simp)

theorem add_accent_ok (fsys : FSys) (s : Store) (self : CorpusObj) (accent : String)
    (s2 : Store) (c : CorpusObj) (h : add_accent fsys s self accent = (s2, .ok c)) :
    c = ⟨self.dataset_path, s.lists.length, s.sets.length + 1⟩
    ∧ (∀ i, i < s.lists.length → s2.getList i = s.getList i)
    ∧ (∀ j, j < s.sets.length → s2.getSet j = s.getSet j)
    ∧ globRecordings fsys self.dataset_path (setIter (s2.getSet c.speakersRef))
        = .ok (s2.getList c.recordingsRef) := by
  have hns : Store.getSet ⟨s.lists ++ [[]], s.sets ++ [∅]⟩ self.speakersRef
      = s.getSet self.speakersRef := getD_append_default _ _ _
  simp only [add_accent, make_corpus] at h
  split at h
  · exact absurd h (by simp)
  · rename_i m hm
    split at h
    · exact absurd h (by simp)
    · rename_i ns hnsp
      split at h
      · rename_i s3 u heq
        injection h with h1 h2
        subst h1
        injection h2 with h2
        subst h2
        rw [hns] at heq
        obtain ⟨hframeL, hframeS, hnew, hglob⟩ :=
          opCore fsys self.dataset_path s _ s3 u heq
        have hc : ((s.sets ++ [∅]).length) = s.sets.length + 1 := by simp
        refine ⟨by rw [← hc], hframeL, hframeS, ?_⟩
        show globRecordings fsys self.dataset_path
          (setIter (s3.getSet ((s.sets ++ [∅]).length))) = .ok (s3.getList s.lists.length)
        rw [hnew]
        exact hglob
      · exact absurd h (by simp)

theorem add_gender_ok (fsys : FSys) (s : Store) (self : CorpusObj) (gender : String)
    (s2 : Store) (c : CorpusObj) (h : add_gender fsys s self gender = (s2, .ok c)) :
    c = ⟨self.dataset_path, s.lists.length, s.sets.length + 1⟩
    ∧ (∀ i, i < s.lists.length → s2.getList i = s.getList i)
    ∧ (∀ j, j < s.sets.length → s2.getSet j = s.getSet j)
    ∧ globRecordings fsys self.dataset_path (setIter (s2.getSet c.speakersRef))
        = .ok (s2.getList c.recordingsRef) := by
  have hns : Store.getSet ⟨s.lists ++ [[]], s.sets ++ [∅]⟩ self.speakersRef
      = s.getSet self.speakersRef := getD_append_default _ _ _
  simp only [add_gender, make_corpus] at h
  split at h
  · exact absurd h (by simp)
  · rename_i m hm
    split at h
    · exact absurd h (by simp)
    · rename_i ns hnsp
      split at h
      · rename_i s3 u heq
        injection h with h1 h2
        subst h1
        injection h2 with h2
        subst h2
        rw [hns] at heq
        obtain ⟨hframeL, hframeS, hnew, hglob⟩ :=
          opCore fsys self.dataset_path s _ s3 u heq
        have hc : ((s.sets ++ [∅]).length) = s.sets.length + 1 := by simp
        refine ⟨by rw [← hc], hframeL, hframeS, ?_⟩
        show globRecordings fsys self.dataset_path
          (setIter (s3.getSet ((s.sets ++ [∅]).length))) = .ok (s3.getList s.lists.length)
        rw [hnew]
        exact hglob
      · exact absurd h (by simp)

theorem corpusAnd_ok (fsys : FSys) (s : Store) (self other : CorpusObj)
    (s2 : Store) (c : CorpusObj) (h : corpusAnd fsys s self other = (s2, .ok c)) :
    c = ⟨self.dataset_path, s.lists.length, s.sets.length + 1⟩
    ∧ (∀ i, i < s.lists.length → s2.getList i = s.getList i)
    ∧ (∀ j, j < s.sets.length → s2.getSet j = s.getSet j)
    ∧ s2.getSet c.speakersRef = s.getSet self.speakersRef ∩ s.getSet other.speakersRef
    ∧ globRecordings fsys self.dataset_path (setIter (s2.getSet c.speakersRef))
        = .ok (s2.getList c.recordingsRef) := by
  have hns : Store.getSet ⟨s.lists ++ [[]], s.sets ++ [∅]⟩ self.speakersRef
      = s.getSet self.speakersRef := getD_append_default _ _ _
  have hno : Store.getSet ⟨s.lists ++ [[]], s.sets ++ [∅]⟩ other.speakersRef
      = s.getSet other.speakersRef := getD_append_default _ _ _
  simp only [corpusAnd, make_corpus] at h
  split at h
  · rename_i s3 u heq
    injection h with h1 h2
    subst h1
    injection h2 with h2
    subst h2
    rw [hns, hno] at heq
    obtain ⟨hframeL, hframeS, hnew, hglob⟩ :=
      opCore fsys self.dataset_path s _ s3 u heq
    have hc : ((s.sets ++ [∅]).length) = s.sets.length + 1 := by simp
    refine ⟨by rw [← hc], hframeL, hframeS, ?_, ?_⟩
    · show s3.getSet ((s.sets ++ [∅]).length) = _
      rw [hnew]
    · show globRecordings fsys self.dataset_path
        (setIter (s3.getSet ((s.sets ++ [∅]).length))) = .ok (s3.getList s.lists.length)
      rw [hnew]
      exact hglob
  · exact absurd h (by simp)

theorem accentMatch_congr (x y : String) (h : capitalize x = capitalize y)
    (vals : List String) : accentMatch x vals = accentMatch y vals := by
  unfold accentMatch
  cases hv : vals.head? with
  | none => rfl
  | some v => rw [h]

theorem accentSpeakers_congr (x y : String) (h : capitalize x = capitalize y) :
    ∀ m : MetaDict, accentSpeakers x m = accentSpeakers y m := by
  intro m
  induction m with
  | nil => rfl
  | cons e rest ih =>
    obtain ⟨al, vals⟩ := e
    rw [accentSpeakers, accentSpeakers, accentMatch_congr x y h vals, ih]

/-- Claim C7: add_accent selects speakers by capitalize()-normalized
comparison of the accent argument against each entry of the slash-separated
accent list of each speaker, so any two accent arguments with the same
capitalize()-normal form produce identical results; in particular
add_accent("english"), add_accent("ENGLISH") and add_accent("EnGlIsH")
select the identical speaker set (indeed identical corpora). -/
theorem add_accent_capitalize_invariance :
    (∀ (fsys : FSys) (s : Store) (self : CorpusObj) (x y : String),
      capitalize x = capitalize y → add_accent fsys s self x = add_accent fsys s self y)
    ∧ (∀ (fsys : FSys) (s : Store) (self : CorpusObj),
      add_accent fsys s self "english" = add_accent fsys s self "ENGLISH"
      ∧ add_accent fsys s self "english" = add_accent fsys s self "EnGlIsH") := by
  have key : ∀ (fsys : FSys) (s : Store) (self : CorpusObj) (x y : String),
      capitalize x = capitalize y → add_accent fsys s self x = add_accent fsys s self y := by
    intro fsys s self x y h
    unfold add_accent
    simp only [accentSpeakers_congr x y h]
  exact ⟨key, fun fsys s self =>
    ⟨key fsys s self _ _ (by decide), key fsys s self _ _ (by decide)⟩⟩

theorem add_accent_capitalize_invariance_witness :
    add_accent emptyFS ⟨[], []⟩ ⟨"p", 0, 0⟩ "english"
      = add_accent emptyFS ⟨[], []⟩ ⟨"p", 0, 0⟩ "ENGLISH" :=
  add_accent_capitalize_invariance.1 emptyFS ⟨[], []⟩ ⟨"p", 0, 0⟩ "english" "ENGLISH" (by decide)

/-- Claim C3: len(corpus) is the number of unique speaker aliases — it reads
only the speakers set (so it is invariant under any change to the recordings
heap), equals the cardinality of the speaker set of the corpus, and on a concrete
corpus with one speaker and two recordings it returns 1, not 2. -/
theorem corpus_len_counts_speakers :
    (∀ (l1 l2 : List (List Recording)) (st : List (Finset String)) (c : CorpusObj),
      corpusLen ⟨l1, st⟩ c = corpusLen ⟨l2, st⟩ c)
    ∧ (∀ (s : Store) (c : CorpusObj), corpusLen s c = (s.getSet c.speakersRef).card)
    ∧ corpusLen lenStore lenCorpus = 1
    ∧ (lenStore.getList lenCorpus.recordingsRef).length = 2 := by
  refine ⟨fun l1 l2 st c => rfl, fun s c => rfl, ?_, rfl⟩
  show ({"aa"} : Finset String).card = 1
  simp

/-- Claim C8: for corpora A and B sharing a dataset path, the speaker set of
A & B is the set intersection of the speaker sets of A and B, and intersecting a
corpus with itself yields an identical speaker set. -/
theorem corpus_and_speaker_intersection :
    (∀ (fsys : FSys) (s : Store) (A B : CorpusObj) (s2 : Store) (c : CorpusObj),
      A.dataset_path = B.dataset_path →
      corpusAnd fsys s A B = (s2, .ok c) →
      s2.getSet c.speakersRef = s.getSet A.speakersRef ∩ s.getSet B.speakersRef)
    ∧ (∀ (fsys : FSys) (s : Store) (A : CorpusObj) (s2 : Store) (c : CorpusObj),
      corpusAnd fsys s A A = (s2, .ok c) →
      s2.getSet c.speakersRef = s.getSet A.speakersRef) := by
  constructor
  · intro fsys s A B s2 c hpath h
    exact (corpusAnd_ok fsys s A B s2 c h).2.2.2.1
  · intro fsys s A s2 c h
    rw [(corpusAnd_ok fsys s A A s2 c h).2.2.2.1, Finset.inter_self]

theorem corpus_and_speaker_intersection_witness :
    (⟨[[], []], [∅, ∅, ∅]⟩ : Store).getSet 2
      = (⟨[[]], [∅]⟩ : Store).getSet 0 ∩ (⟨[[]], [∅]⟩ : Store).getSet 0 :=
  corpus_and_speaker_intersection.1 emptyFS ⟨[[]], [∅]⟩ ⟨"p", 0, 0⟩ ⟨"p", 0, 0⟩
    ⟨[[], []], [∅, ∅, ∅]⟩ ⟨"p", 1, 2⟩ rfl
    (by simp [corpusAnd, make_corpus, Store.getSet, setIter, buildRecs, emptyFS])

/-- Claim C9: each of add_speakers, add_accent, add_gender and intersection
(&) returns a new Corpus instance — its recordings and speakers cells are
fresh, distinct from those of the receiver — and leaves the receiving corpus with its
recordings list and speakers set (and trivially its immutable dataset_path)
unchanged in the store. -/
theorem corpus_ops_preserve_receiver :
    (∀ (fsys : FSys) (s : Store) (self : CorpusObj) (names : List String)
        (s2 : Store) (c : CorpusObj),
      self.recordingsRef < s.lists.length → self.speakersRef < s.sets.length →
      add_speakers fsys s self names = (s2, .ok c) →
      s2.getList self.recordingsRef = s.getList self.recordingsRef
      ∧ s2.getSet self.speakersRef = s.getSet self.speakersRef
      ∧ c.recordingsRef ≠ self.recordingsRef ∧ c.speakersRef ≠ self.speakersRef)
    ∧ (∀ (fsys : FSys) (s : Store) (self : CorpusObj) (accent : String)
        (s2 : Store) (c : CorpusObj),
      self.recordingsRef < s.lists.length → self.speakersRef < s.sets.length →
      add_accent fsys s self accent = (s2, .ok c) →
      s2.getList self.recordingsRef = s.getList self.recordingsRef
      ∧ s2.getSet self.speakersRef = s.getSet self.speakersRef
      ∧ c.recordingsRef ≠ self.recordingsRef ∧ c.speakersRef ≠ self.speakersRef)
    ∧ (∀ (fsys : FSys) (s : Store) (self : CorpusObj) (gender : String)
        (s2 : Store) (c : CorpusObj),
      self.recordingsRef < s.lists.length → self.speakersRef < s.sets.length →
      add_gender fsys s self gender = (s2, .ok c) →
      s2.getList self.recordingsRef = s.getList self.recordingsRef
      ∧ s2.getSet self.speakersRef = s.getSet self.speakersRef
      ∧ c.recordingsRef ≠ self.recordingsRef ∧ c.speakersRef ≠ self.speakersRef)
    ∧ (∀ (fsys : FSys) (s : Store) (self other : CorpusObj)
        (s2 : Store) (c : CorpusObj),
      self.recordingsRef < s.lists.length → self.speakersRef < s.sets.length →
      corpusAnd fsys s self other = (s2, .ok c) →
      s2.getList self.recordingsRef = s.getList self.recordingsRef
      ∧ s2.getSet self.speakersRef = s.getSet self.speakersRef
      ∧ c.recordingsRef ≠ self.recordingsRef ∧ c.speakersRef ≠ self.speakersRef) := by
  refine ⟨?_, ?_, ?_, ?_⟩
  · intro fsys s self names s2 c hr hs h
    obtain ⟨hc, hL, hS, -, -⟩ := add_speakers_ok fsys s self names s2 c h
    subst hc
    exact ⟨hL _ hr, hS _ hs, by simp; omega, by simp; omega⟩
  · intro fsys s self accent s2 c hr hs h
    obtain ⟨hc, hL, hS, -⟩ := add_accent_ok fsys s self accent s2 c h
    subst hc
    exact ⟨hL _ hr, hS _ hs, by simp; omega, by simp; omega⟩
  · intro fsys s self gender s2 c hr hs h
    obtain ⟨hc, hL, hS, -⟩ := add_gender_ok fsys s self gender s2 c h
    subst hc
    exact ⟨hL _ hr, hS _ hs, by simp; omega, by simp; omega⟩
  · intro fsys s self other s2 c hr hs h
    obtain ⟨hc, hL, hS, -, -⟩ := corpusAnd_ok fsys s self other s2 c h
    subst hc
    exact ⟨hL _ hr, hS _ hs, by simp; omega, by simp; omega⟩

theorem corpus_ops_preserve_receiver_witness :
    (⟨[[], []], [∅, ∅, ∅]⟩ : Store).getList 0 = (⟨[[]], [∅]⟩ : Store).getList 0
    ∧ (⟨[[], []], [∅, ∅, ∅]⟩ : Store).getSet 0 = (⟨[[]], [∅]⟩ : Store).getSet 0
    ∧ (⟨"p", 1, 2⟩ : CorpusObj).recordingsRef ≠ (⟨"p", 0, 0⟩ : CorpusObj).recordingsRef
    ∧ (⟨"p", 1, 2⟩ : CorpusObj).speakersRef ≠ (⟨"p", 0, 0⟩ : CorpusObj).speakersRef :=
  corpus_ops_preserve_receiver.1 emptyFS ⟨[[]], [∅]⟩ ⟨"p", 0, 0⟩ []
    ⟨[[], []], [∅, ∅, ∅]⟩ ⟨"p", 1, 2⟩ (by decide) (by decide)
    (by simp [add_speakers, make_corpus, Store.getSet, setIter, buildRecs, emptyFS])

/-- Claim C10: the Corpus returned by add_speakers, add_accent, add_gender or
intersection (&) carries the dataset_path of the receiver, and its recordings list
is exactly the decode of the files globbed from that same dataset path for
the resulting speaker set. -/
theorem corpus_ops_same_dataset_path :
    (∀ (fsys : FSys) (s : Store) (self : CorpusObj) (names : List String)
        (s2 : Store) (c : CorpusObj),
      add_speakers fsys s self names = (s2, .ok c) →
      c.dataset_path = self.dataset_path
      ∧ globRecordings fsys self.dataset_path (setIter (s2.getSet c.speakersRef))
          = .ok (s2.getList c.recordingsRef))
    ∧ (∀ (fsys : FSys) (s : Store) (self : CorpusObj) (accent : String)
        (s2 : Store) (c : CorpusObj),
      add_accent fsys s self accent = (s2, .ok c) →
      c.dataset_path = self.dataset_path
      ∧ globRecordings fsys self.dataset_path (setIter (s2.getSet c.speakersRef))
          = .ok (s2.getList c.recordingsRef))
    ∧ (∀ (fsys : FSys) (s : Store) (self : CorpusObj) (gender : String)
        (s2 : Store) (c : CorpusObj),
      add_gender fsys s self gender = (s2, .ok c) →
      c.dataset_path = self.dataset_path
      ∧ globRecordings fsys self.dataset_path (setIter (s2.getSet c.speakersRef))
          = .ok (s2.getList c.recordingsRef))
    ∧ (∀ (fsys : FSys) (s : Store) (self other : CorpusObj)
        (s2 : Store) (c : CorpusObj),
      corpusAnd fsys s self other = (s2, .ok c) →
      c.dataset_path = self.dataset_path
      ∧ globRecordings fsys self.dataset_path (setIter (s2.getSet c.speakersRef))
          = .ok (s2.getList c.recordingsRef)) := by
  refine ⟨?_, ?_, ?_, ?_⟩
  · intro fsys s self names s2 c h
    obtain ⟨hc, -, -, -, hg⟩ := add_speakers_ok fsys s self names s2 c h
    exact ⟨by rw [hc], hg⟩
  · intro fsys s self accent s2 c h
    obtain ⟨hc, -, -, hg⟩ := add_accent_ok fsys s self accent s2 c h
    exact ⟨by rw [hc], hg⟩
  · intro fsys s self gender s2 c h
    obtain ⟨hc, -, -, hg⟩ := add_gender_ok fsys s self gender s2 c h
    exact ⟨by rw [hc], hg⟩
  · intro fsys s self other s2 c h
    obtain ⟨hc, -, -, -, hg⟩ := corpusAnd_ok fsys s self other s2 c h
    exact ⟨by rw [hc], hg⟩

theorem corpus_ops_same_dataset_path_witness :
    (⟨"p", 1, 2⟩ : CorpusObj).dataset_path = (⟨"p", 0, 0⟩ : CorpusObj).dataset_path
    ∧ globRecordings emptyFS (⟨"p", 0, 0⟩ : CorpusObj).dataset_path
        (setIter ((⟨[[], []], [∅, ∅, ∅]⟩ : Store).getSet (⟨"p", 1, 2⟩ : CorpusObj).speakersRef))
      = .ok ((⟨[[], []], [∅, ∅, ∅]⟩ : Store).getList (⟨"p", 1, 2⟩ : CorpusObj).recordingsRef) :=
  corpus_ops_same_dataset_path.1 emptyFS ⟨[[]], [∅]⟩ ⟨"p", 0, 0⟩ []
    ⟨[[], []], [∅, ∅, ∅]⟩ ⟨"p", 1, 2⟩
    (by simp [add_speakers, make_corpus, Store.getSet, setIter, buildRecs, emptyFS])
